import Mathlib

set_option maxRecDepth 8000

namespace TCG

/-! Shallow embedding of the test-case synthesis backend
(src/api/main.py, src/api/services/llm_service.py,
src/app/services/jira_service.py). Model responses, HTTP payloads and
Jira issue fields are all JSON-shaped Python values, so a single Json
type carries them. Stateful pieces (the follow-up context dictionary)
are passed explicitly. Python exceptions are modelled with Except. -/

/-- JSON values as produced by the json.loads call in
src/api/services/llm_service.py. Numbers are modelled as integers: the
repository never produces or consumes fractional numbers, and the
parser model below rejects them rather than mis-reading them. Objects
keep key order and, like Python dicts, hold at most one entry per key. -/
inductive Json where
  | null : Json
  | bool (b : Bool) : Json
  | num (n : Int) : Json
  | str (s : String) : Json
  | arr (xs : List Json) : Json
  | obj (kvs : List (String × Json)) : Json

/-- Python truthiness of a JSON value: None, False, 0, the empty
string, the empty list and the empty dict are falsy. -/
def truthy : Json → Bool
  | Json.null => false
  | Json.bool b => b
  | Json.num n => n != 0
  | Json.str s => s != ""
  | Json.arr xs => !xs.isEmpty
  | Json.obj kvs => !kvs.isEmpty

/-- Truthiness of an optional value; a missing value is the Python None
and is falsy. -/
def optTruthy : Option Json → Bool
  | none => false
  | some j => truthy j

/-- The Python exceptions the embedded code can raise. -/
inductive PyErr where
  | attributeError (msg : String) : PyErr
  | typeError (msg : String) : PyErr
  | keyError (key : String) : PyErr

/-- Python d.get(k): only dicts have the get attribute; a missing key
yields None (modelled as none). -/
def dictGet (j : Json) (k : String) : Except PyErr (Option Json) :=
  match j with
  | Json.obj kvs => Except.ok (List.lookup k kvs)
  | _ => Except.error (PyErr.attributeError "object has no attribute get")

/-- Python len(v): defined for strings, lists and dicts only. -/
def pyLen (j : Json) : Except PyErr Nat :=
  match j with
  | Json.str s => Except.ok s.length
  | Json.arr xs => Except.ok xs.length
  | Json.obj kvs => Except.ok kvs.length
  | _ => Except.error (PyErr.typeError "object has no len")

/-- Python v[k] with a string key: dicts raise KeyError on a missing
key; every other value raises TypeError. -/
def pyIndex (j : Json) (k : String) : Except PyErr Json :=
  match j with
  | Json.obj kvs =>
    match List.lookup k kvs with
    | some v => Except.ok v
    | none => Except.error (PyErr.keyError k)
  | _ => Except.error (PyErr.typeError "object is not subscriptable with str")

/-- Python string concatenation a + v: the right operand must be a
string. -/
def pyStrAdd (a : String) (j : Json) : Except PyErr String :=
  match j with
  | Json.str s => Except.ok (a ++ s)
  | _ => Except.error (PyErr.typeError "can only concatenate str to str")

/-- Python iteration over a JSON value: lists yield their elements,
strings their one-character substrings, dicts their keys; other values
raise TypeError. -/
def pyIterList : Json → Except PyErr (List Json)
  | Json.arr xs => Except.ok xs
  | Json.str s => Except.ok (s.data.map (fun ch => Json.str (String.mk [ch])))
  | Json.obj kvs => Except.ok (kvs.map (fun kv => Json.str kv.1))
  | _ => Except.error (PyErr.typeError "object is not iterable")

/-- Key membership in a JSON object (false on non-objects). -/
def hasKey (j : Json) (k : String) : Bool :=
  match j with
  | Json.obj kvs => (List.lookup k kvs).isSome
  | _ => false

/-- Insert a key into an association list with Python dict semantics: a
repeated key overwrites the stored value in place. -/
def upsert (kvs : List (String × Json)) (k : String) (v : Json) : List (String × Json) :=
  match kvs with
  | [] => [(k, v)]
  | (k0, v0) :: rest => if k0 = k then (k0, v) :: rest else (k0, v0) :: upsert rest k v

/-- Skip the JSON whitespace characters accepted by json.loads. -/
def skipWs : List Char → List Char
  | [] => []
  | c :: cs => if c = ' ' ∨ c = '\t' ∨ c = '\n' ∨ c = '\r' then skipWs cs else c :: cs

/-- Value of a hexadecimal digit. -/
def hexVal (c : Char) : Option Nat :=
  if '0' ≤ c ∧ c ≤ '9' then some (c.toNat - 48)
  else if 'a' ≤ c ∧ c ≤ 'f' then some (c.toNat - 87)
  else if 'A' ≤ c ∧ c ≤ 'F' then some (c.toNat - 55)
  else none

/-- JSON string escape characters (strict json.loads set). -/
def escChar (e : Char) : Option Char :=
  if e = '"' then some '"'
  else if e = '\\' then some '\\'
  else if e = '/' then some '/'
  else if e = 'b' then some (Char.ofNat 8)
  else if e = 'f' then some (Char.ofNat 12)
  else if e = 'n' then some (Char.ofNat 10)
  else if e = 'r' then some (Char.ofNat 13)
  else if e = 't' then some (Char.ofNat 9)
  else none

/-- Body of a JSON string literal, after the opening quote. Fuel is at
least the length of the remaining input. -/
def pStr : Nat → List Char → Option (String × List Char)
  | 0, _ => none
  | _ + 1, [] => none
  | fuel + 1, c :: rest =>
    if c = '"' then some ("", rest)
    else if c = '\\' then
      match rest with
      | [] => none
      | e :: rest2 =>
        if e = 'u' then
          match rest2 with
          | h1 :: h2 :: h3 :: h4 :: rest3 =>
            match hexVal h1, hexVal h2, hexVal h3, hexVal h4 with
            | some a, some b, some c2, some d =>
              match pStr fuel rest3 with
              | some (s, r) => some (String.mk (Char.ofNat (((a * 16 + b) * 16 + c2) * 16 + d) :: s.data), r)
              | none => none
            | _, _, _, _ => none
          | _ => none
        else
          match escChar e with
          | some ec =>
            match pStr fuel rest2 with
            | some (s, r) => some (String.mk (ec :: s.data), r)
            | none => none
          | none => none
    else if c.toNat < 32 then none
    else
      match pStr fuel rest with
      | some (s, r) => some (String.mk (c :: s.data), r)
      | none => none

/-- Accumulate a run of decimal digits. -/
def digitsAux : Nat → List Char → Nat × List Char
  | acc, [] => (acc, [])
  | acc, c :: cs => if c.isDigit then digitsAux (acc * 10 + (c.toNat - 48)) cs else (acc, c :: cs)

/-- Unsigned JSON integer: a single 0, or a nonzero digit followed by
digits; leading zeros are rejected as in strict JSON. -/
def pNatNum : List Char → Option (Nat × List Char)
  | [] => none
  | c :: cs =>
    if c = '0' then
      match cs with
      | d :: _ => if d.isDigit then none else some (0, cs)
      | [] => some (0, [])
    else if c.isDigit then some (digitsAux (c.toNat - 48) cs)
    else none

/-- JSON number (integer form, optional leading minus). -/
def pNum (cs : List Char) : Option (Json × List Char) :=
  match cs with
  | '-' :: rest =>
    match pNatNum rest with
    | some (n, r) => some (Json.num (-(n : Int)), r)
    | none => none
  | _ =>
    match pNatNum cs with
    | some (n, r) => some (Json.num (n : Int), r)
    | none => none

/-- Parser modes: a value, an object body after the opening brace, the
member list of an object, an array body after the opening bracket, the
element list of an array. -/
inductive PMode where
  | val : PMode
  | objBody : PMode
  | members (acc : List (String × Json)) : PMode
  | arrBody : PMode
  | elems (acc : List Json) : PMode

/-- Recursive-descent JSON parser (model of the strict json.loads
grammar, restricted to integer numbers). Fuel bounds the recursion. -/
def pRun : Nat → PMode → List Char → Option (Json × List Char)
  | 0, _, _ => none
  | fuel + 1, PMode.val, cs =>
    match skipWs cs with
    | '{' :: rest => pRun fuel PMode.objBody rest
    | '[' :: rest => pRun fuel PMode.arrBody rest
    | '"' :: rest =>
      match pStr (rest.length + 1) rest with
      | some (s, r) => some (Json.str s, r)
      | none => none
    | 't' :: 'r' :: 'u' :: 'e' :: rest => some (Json.bool true, rest)
    | 'f' :: 'a' :: 'l' :: 's' :: 'e' :: rest => some (Json.bool false, rest)
    | 'n' :: 'u' :: 'l' :: 'l' :: rest => some (Json.null, rest)
    | cs2 => pNum cs2
  | fuel + 1, PMode.objBody, cs =>
    match skipWs cs with
    | '}' :: rest => some (Json.obj [], rest)
    | cs2 => pRun fuel (PMode.members []) cs2
  | fuel + 1, PMode.members acc, cs =>
    match skipWs cs with
    | '"' :: rest =>
      match pStr (rest.length + 1) rest with
      | none => none
      | some (k, rest2) =>
        match skipWs rest2 with
        | ':' :: rest3 =>
          match pRun fuel PMode.val rest3 with
          | none => none
          | some (v, rest4) =>
            match skipWs rest4 with
            | ',' :: rest5 => pRun fuel (PMode.members (upsert acc k v)) rest5
            | '}' :: rest5 => some (Json.obj (upsert acc k v), rest5)
            | _ => none
        | _ => none
    | _ => none
  | fuel + 1, PMode.arrBody, cs =>
    match skipWs cs with
    | ']' :: rest => some (Json.arr [], rest)
    | cs2 => pRun fuel (PMode.elems []) cs2
  | fuel + 1, PMode.elems acc, cs =>
    match pRun fuel PMode.val cs with
    | none => none
    | some (v, rest) =>
      match skipWs rest with
      | ',' :: rest2 => pRun fuel (PMode.elems (acc ++ [v])) rest2
      | ']' :: rest2 => some (Json.arr (acc ++ [v]), rest2)
      | _ => none

/-- Model of json.loads: parse one JSON value and require that only
whitespace remains; any failure is the raised ValueError, modelled as
none. -/
def jsonParse (text : String) : Option Json :=
  match pRun (4 * text.data.length + 8) PMode.val text.data with
  | some (v, rest) => if skipWs rest = [] then some v else none
  | none => none

/-- Index of the first occurrence of a character, if any. -/
def firstIdxAux (c : Char) : List Char → Option Nat
  | [] => none
  | x :: xs => if x = c then some 0 else (firstIdxAux c xs).map (· + 1)

/-- Index of the last occurrence of a character, if any. -/
def lastIdxAux (c : Char) : List Char → Option Nat
  | [] => none
  | x :: xs =>
    match lastIdxAux c xs with
    | some i => some (i + 1)
    | none => if x = c then some 0 else none

/-- Python text.find(c): index of the first occurrence or -1. -/
def strFind (text : String) (c : Char) : Int :=
  match firstIdxAux c text.data with
  | some i => (i : Int)
  | none => -1

/-- Python text.rfind(c): index of the last occurrence or -1. -/
def strRFind (text : String) (c : Char) : Int :=
  match lastIdxAux c text.data with
  | some i => (i : Int)
  | none => -1

/-- Python text[a:b] for 0 ≤ a ≤ b. -/
def pySlice (text : String) (a b : Nat) : String :=
  String.mk ((text.data.drop a).take (b - a))

/-- LLMService._safe_parse_json (src/api/services/llm_service.py lines
111 to 123): strict parse of the whole text; on failure, strict parse
of the substring from the first opening brace through the last closing
brace when both exist in that order; otherwise None. The Python
function catches every exception, so the model is total. -/
def safeParseJson (text : String) : Option Json :=
  match jsonParse text with
  | some v => some v
  | none =>
    let start := strFind text '{'
    let stop := strRFind text '}'
    if start ≠ -1 ∧ stop ≠ -1 ∧ start < stop then
      jsonParse (pySlice text start.toNat (stop.toNat + 1))
    else none

/-- The parser contract exactly as the specification states it: return
the strict parse of the whole text when that succeeds; otherwise, when
the text contains an opening brace and a later closing brace, return
the strict parse of the substring from the first opening brace through
the last closing brace; in every remaining case return null. Stated
from the specification words, to be compared with safeParseJson. -/
def safeParseClaimed (text : String) : Option Json :=
  match jsonParse text with
  | some v => some v
  | none =>
    match firstIdxAux '{' text.data, lastIdxAux '}' text.data with
    | some i, some k =>
      if i < k then jsonParse (String.mk ((text.data.drop i).take (k + 1 - i))) else none
    | _, _ => none

/-- Number of maximal balanced brace regions of a character list: a
region closes each time the brace depth returns from one to zero. Used
to state the balanced-region side condition of the parser idempotence
claim. -/
def brcAux : Nat → Nat → List Char → Nat
  | _, cnt, [] => cnt
  | depth, cnt, c :: cs =>
    if c = '{' then brcAux (depth + 1) cnt cs
    else if c = '}' then
      if depth = 1 then brcAux 0 (cnt + 1) cs else brcAux (depth - 1) cnt cs
    else brcAux depth cnt cs

/-- Count of balanced brace regions in a string. -/
def balancedRegionCount (text : String) : Nat :=
  brcAux 0 0 text.data

/-- Python s[:n] (the 12000-character truncation applied to source
text before prompting). -/
def pyTake (s : String) (n : Nat) : String :=
  String.mk (s.data.take n)

/-- LLMService._build_generation_prompt (llm_service.py lines 54 to
85). -/
def buildGenerationPrompt (sourceText : String) (maxCases : Nat) : String :=
  let instructions :=
    "You are a senior QA engineer for healthcare software. " ++
    "Generate a diverse suite of test cases (positive, negative, edge cases) with realistic test data. " ++
    "Focus on HIPAA, PHI handling, consent, audit logging, roles, clinical safety, interoperability (HL7/FHIR), and input validation. " ++
    "Return ONLY a valid JSON object with a top-level key \x27testCases\x27 which is an array of objects. " ++
    "Each object must have fields: testCaseId, title, description, testSteps (array of strings), " ++
    "expectedResults, priority (P1/P2/P3). " ++
    "Use at most " ++ toString maxCases ++ " test cases. Use readable IDs like TC-001, TC-002."
  let schemaExample :=
    "\x7b\n  \"testCases\": [\n    \x7b\n      \"testCaseId\": \"TC-001\",\n      \"title\": \"Example\",\n      \"description\": \"...\",\n      \"testSteps\": [\"step 1\", \"step 2\"],\n      \"expectedResults\": \"...\",\n      \"priority\": \"P2\"\n    \x7d\n  ]\n\x7d"
  instructions ++ "\n\n" ++ "Context:\n" ++ pyTake sourceText 12000 ++ "\n\n" ++
    "JSON Schema and Example:\n" ++ schemaExample ++ "\n\n" ++ "Return only JSON with no extra text."

/-- LLMService._build_refinement_prompt (llm_service.py lines 87 to
102). -/
def buildRefinementPrompt (sourceText : String) (qaBlockText : String) (maxCases : Nat) : String :=
  let instructions :=
    "Refine and regenerate the healthcare QA test cases based on additional clarifications below. " ++
    "Return ONLY JSON with top-level key \x27testCases\x27. Maintain the same schema. " ++
    "Ensure coverage of both normal and failure paths, boundary conditions, and compliance aspects. " ++
    "Use at most " ++ toString maxCases ++ " test cases."
  instructions ++ "\n\n" ++ "Context:\n" ++ pyTake sourceText 12000 ++ "\n\n" ++
    "Clarifications:\n" ++ qaBlockText ++ "\n\n" ++ "Return only JSON."

/-- LLMService._propose_followups (llm_service.py lines 104 to 109):
the fixed clarifying questions; the source text parameter is unused in
the source as well. -/
def proposeFollowups (_sourceText : String) : List String :=
  ["What user roles and permissions need to be covered (e.g., clinician, admin, patient)?",
   "What environments or integrations are in scope (e.g., FHIR server, EHR vendor, external IDP)?",
   "Any regulatory constraints or organizational policies we must validate beyond HIPAA (e.g., SOC2, ISO 27001)?"]

/-- The statement parsed = self._safe_parse_json(content) followed by
the guard: if not parsed, parsed becomes a dict with an empty testCases
list (llm_service.py lines 19 to 22 and 47 to 50). The falsy values
None, 0, empty string, empty list and empty dict are all replaced. -/
def fixFalsy (parsed : Option Json) : Json :=
  match parsed with
  | none => Json.obj [("testCases", Json.arr [])]
  | some j => if truthy j then j else Json.obj [("testCases", Json.arr [])]

/-- Which return statement of generate_test_cases executed: the
clarification bundle or the parsed dict. In Python both are plain
dicts; genReturnJson recovers that dict. -/
inductive GenReturn where
  | followUps (qs : List String) : GenReturn
  | result (j : Json) : GenReturn

/-- The dict value a GenReturn denotes in Python. -/
def genReturnJson : GenReturn → Json
  | GenReturn.followUps qs => Json.obj [("followUpQuestions", Json.arr (qs.map Json.str))]
  | GenReturn.result j => j

/-- LLMService.generate_test_cases (llm_service.py lines 14 to 28).
The model invocation is the only effect; its raw response text is the
content parameter, so the function becomes a pure map from the response
to the returned dict. The chained condition
  enable_followups and (not parsed.get(tc) or len(parsed.get(tc, [])) < 3)
short-circuits left to right; parsed.get raises AttributeError on a
non-dict value and len raises TypeError on a non-sized value, modelled
with Except. -/
def generateTestCases (sourceText : String) (maxCases : Nat) (enableFollowups : Bool)
    (content : String) : Except PyErr GenReturn :=
  let _prompt := buildGenerationPrompt sourceText maxCases
  let parsed := fixFalsy (safeParseJson content)
  if enableFollowups then
    match dictGet parsed "testCases" with
    | Except.error e => Except.error e
    | Except.ok tc =>
      if optTruthy tc = false then
        Except.ok (GenReturn.followUps (proposeFollowups sourceText))
      else
        match pyLen (tc.getD (Json.arr [])) with
        | Except.error e => Except.error e
        | Except.ok n =>
          if n < 3 then Except.ok (GenReturn.followUps (proposeFollowups sourceText))
          else Except.ok (GenReturn.result parsed)
  else
    Except.ok (GenReturn.result parsed)

/-- The answer chosen for question index idx (llm_service.py line 39):
  a = answers_map.get(str(idx), empty) or answers_map.get(idx) or empty.
The map is typed Dict[str, str], so the integer-key fallback lookup
always misses and the chain collapses to the string-key lookup with an
empty-string default. -/
def answerFor (answersMap : List (String × String)) (idx : Nat) : String :=
  let a1 := (List.lookup (toString idx) answersMap).getD ""
  if a1 = "" then "" else a1

/-- The loop body of generate_refined_test_cases (llm_service.py lines
37 to 40): one Q/A entry per question, carrying the running enumerate
index. -/
def qaPairsAux (answersMap : List (String × String)) (idx : Nat) : List String → List String
  | [] => []
  | q :: qs => ("Q: " ++ q ++ " A: " ++ answerFor answersMap idx) :: qaPairsAux answersMap (idx + 1) qs

/-- The qa_pairs list built by generate_refined_test_cases. -/
def qaPairs (questions : List String) (answersMap : List (String × String)) : List String :=
  qaPairsAux answersMap 0 questions

/-- qa_block = newline join of qa_pairs (llm_service.py line 41). -/
def qaBlock (questions : List String) (answersMap : List (String × String)) : String :=
  String.intercalate "\n" (qaPairs questions answersMap)

/-- LLMService.generate_refined_test_cases (llm_service.py lines 30 to
52), with the model response text as the content parameter. The
function builds the Q/A block and prompt, parses the response and
applies the same falsy-replacement guard; it has no other branches. -/
def generateRefinedTestCases (sourceText : String) (questions : List String)
    (answersMap : List (String × String)) (maxCases : Nat) (content : String) : Json :=
  let _prompt := buildRefinementPrompt sourceText (qaBlock questions answersMap) maxCases
  fixFalsy (safeParseJson content)

/-- One entry of the follow_up_contexts dictionary (main.py lines 121
to 125): original text, the stored questions and the owning user. -/
structure SynthesisContext where
  originalText : String
  questions : List String
  user : String

/-- The follow_up_contexts dictionary, in insertion order (Python dicts
iterate in insertion order). -/
abbrev CtxStore := List (String × SynthesisContext)

/-- The lookup loop of submit_answers (main.py lines 186 to 190): scan
the stored contexts in order and keep the first one owned by the
requesting user. -/
def findContext (store : CtxStore) (username : String) : Option SynthesisContext :=
  match store with
  | [] => none
  | (_, c) :: rest => if c.user = username then some c else findContext rest username

/-- Errors surfacing inside an endpoint body: an explicitly raised
fastapi HTTPException or a propagated Python exception. -/
inductive AppErr where
  | httpExc (status : Nat) (detail : String) : AppErr
  | pyExc (e : PyErr) : AppErr

/-- Python str(e) for the exceptions above; a starlette HTTPException
renders as status colon detail. -/
def errText : AppErr → String
  | AppErr.httpExc status detail => toString status ++ ": " ++ detail
  | AppErr.pyExc (PyErr.attributeError m) => m
  | AppErr.pyExc (PyErr.typeError m) => m
  | AppErr.pyExc (PyErr.keyError k) => "\x27" ++ k ++ "\x27"

/-- The body of the try block of submit_answers (main.py lines 184 to
204): find the first context owned by the user (404 when none), run
the refinement, and answer with a dict holding the testCases entry of
the result (KeyError or TypeError when absent). No statement deletes
the consumed context. -/
def submitAnswersInner (store : CtxStore) (username : String)
    (answers : List (String × String)) (maxCases : Nat) (content : String) :
    Except AppErr Json :=
  match findContext store username with
  | none => Except.error (AppErr.httpExc 404 "Context not found")
  | some ctx =>
    let result := generateRefinedTestCases ctx.originalText ctx.questions answers maxCases content
    match pyIndex result "testCases" with
    | Except.error e => Except.error (AppErr.pyExc e)
    | Except.ok tcs => Except.ok (Json.obj [("testCases", tcs)])

/-- The submit_answers endpoint (main.py lines 179 to 208). The
enclosing except Exception clause catches every exception raised in the
try block, including the HTTPException(404) raised there, and re-raises
it as HTTPException(500). The store is returned unchanged on every
path. -/
def submitAnswers (store : CtxStore) (username : String)
    (answers : List (String × String)) (maxCases : Nat) (content : String) :
    Except AppErr Json × CtxStore :=
  match submitAnswersInner store username answers maxCases content with
  | Except.ok j => (Except.ok j, store)
  | Except.error e =>
    (Except.error (AppErr.httpExc 500 ("Failed to process answers: " ++ errText e)), store)

/-- The string entries of a stored followUpQuestions value. The source
stores the raw parsed value; the claims never inspect questions stored
through this path, so the embedding records its string entries. -/
def questionStrings : Json → List String
  | Json.arr xs => xs.filterMap (fun j => match j with | Json.str s => some s | _ => none)
  | _ => []

/-- The body of the try block of upload_file after text extraction
(main.py lines 112 to 132): run generation, then either answer with the
follow-up questions plus a fresh context id (storing the context), or
answer with the testCases entry of the result. -/
def uploadFileInner (store : CtxStore) (username : String) (extractedText : String)
    (maxCases : Nat) (enableFollowups : Bool) (content : String) (contextId : String) :
    Except PyErr (Json × CtxStore) :=
  match generateTestCases extractedText maxCases enableFollowups content with
  | Except.error e => Except.error e
  | Except.ok gr =>
    let result := genReturnJson gr
    match dictGet result "followUpQuestions" with
    | Except.error e => Except.error e
    | Except.ok fq =>
      if optTruthy fq then
        let fqv := fq.getD Json.null
        Except.ok (Json.obj [("followUpQuestions", fqv), ("contextId", Json.str contextId)],
          store ++ [(contextId, SynthesisContext.mk extractedText (questionStrings fqv) username)])
      else
        match pyIndex result "testCases" with
        | Except.error e => Except.error e
        | Except.ok tcs => Except.ok (Json.obj [("testCases", tcs)], store)

/-- The upload_file endpoint (main.py lines 90 to 136) from the point
where the extracted text is available: the blanket except Exception
clause maps every failure to HTTPException(500) and leaves the store
unchanged. -/
def uploadFile (store : CtxStore) (username : String) (extractedText : String)
    (maxCases : Nat) (enableFollowups : Bool) (content : String) (contextId : String) :
    Except AppErr Json × CtxStore :=
  match uploadFileInner store username extractedText maxCases enableFollowups content contextId with
  | Except.ok (j, store2) => (Except.ok j, store2)
  | Except.error e =>
    (Except.error (AppErr.httpExc 500 ("Failed to process file: " ++ errText (AppErr.pyExc e))), store)

/-- A response carries exactly one of the two result variants: the
follow-up questions key without the test-case key, or the test-case key
without the follow-up key. -/
def exactlyOneVariant (j : Json) : Bool :=
  (hasKey j "followUpQuestions" && !(hasKey j "testCases")) ||
  (hasKey j "testCases" && !(hasKey j "followUpQuestions"))

/-- The ADF flatten loops of jira_service.py (lines 22 to 26 and 36 to
41): append the text entry of each inner node of each block when that
entry is truthy; the += operation requires the entry to be a string. -/
def adfAppend (acc : String) (inner : Json) : Except PyErr String :=
  match dictGet inner "text" with
  | Except.error e => Except.error e
  | Except.ok t =>
    if optTruthy t then
      match t with
      | some (Json.str s) => Except.ok (acc ++ s)
      | _ => Except.error (PyErr.typeError "can only concatenate str to str")
    else Except.ok acc

/-- Inner loop over the inline nodes of one block. -/
def adfInnerLoop (acc : String) : List Json → Except PyErr String
  | [] => Except.ok acc
  | inner :: rest =>
    match adfAppend acc inner with
    | Except.error e => Except.error e
    | Except.ok acc2 => adfInnerLoop acc2 rest

/-- Outer loop over the blocks of a structured document value: each
block contributes the inline nodes of its content entry (defaulting to
an empty list when the entry is absent). -/
def adfOuterLoop (acc : String) : List Json → Except PyErr String
  | [] => Except.ok acc
  | block :: rest =>
    match dictGet block "content" with
    | Except.error e => Except.error e
    | Except.ok c =>
      match pyIterList (c.getD (Json.arr [])) with
      | Except.error e => Except.error e
      | Except.ok inners =>
        match adfInnerLoop acc inners with
        | Except.error e => Except.error e
        | Except.ok acc2 => adfOuterLoop acc2 rest

/-- Flatten of one structured (dict) field value: iterate the blocks of
its content entry, defaulting to an empty list when absent. -/
def adfFlatten (val : Json) : Except PyErr String :=
  match dictGet val "content" with
  | Except.error e => Except.error e
  | Except.ok cv =>
    match pyIterList (cv.getD (Json.arr [])) with
    | Except.error e => Except.error e
    | Except.ok blocks => adfOuterLoop "" blocks

/-- The fixed ordered list of acceptance field names (jira_service.py
line 31). -/
def acceptanceKeys : List String :=
  ["customfield_10034", "Acceptance Criteria", "acceptanceCriteria"]

/-- The acceptance loop of JiraService.fetch_story (jira_service.py
lines 29 to 42): walk the key list in order; a string value is taken
verbatim and stops the scan, a dict value is flattened and stops the
scan, every other value (absent key included) is passed over. -/
def acceptanceLoop (fields : Json) : List String → Except PyErr String
  | [] => Except.ok ""
  | k :: rest =>
    match dictGet fields k with
    | Except.error e => Except.error e
    | Except.ok val =>
      match val with
      | some (Json.str s) => Except.ok s
      | some (Json.obj kvs) => adfFlatten (Json.obj kvs)
      | _ => acceptanceLoop fields rest

/-- True of a field value the acceptance loop passes over: an absent
key or a value that is neither a string nor a dict. -/
def passedOver (v : Option Json) : Bool :=
  match v with
  | some (Json.str _) => false
  | some (Json.obj _) => false
  | _ => true

/-- The description extraction of fetch_story (jira_service.py lines 19
to 28): a dict with a truthy content entry is flattened, a plain string
is used verbatim, anything else leaves the description empty. -/
def descriptionText (fields : Json) : Except PyErr String :=
  match dictGet fields "description" with
  | Except.error e => Except.error e
  | Except.ok dobj =>
    match dobj with
    | some (Json.obj kvs) =>
      if optTruthy (List.lookup "content" kvs) then adfFlatten (Json.obj kvs) else Except.ok ""
    | some (Json.str s) => Except.ok s
    | _ => Except.ok ""

/-- The story composition of fetch_story (jira_service.py lines 17 to
44) from the decoded response fields: summary, flattened description
and selected acceptance text concatenated with their labels. -/
def storyFromFields (fields : Json) : Except PyErr String :=
  match dictGet fields "summary" with
  | Except.error e => Except.error e
  | Except.ok sv =>
    match pyStrAdd "Summary:" (sv.getD (Json.str "")) with
    | Except.error e => Except.error e
    | Except.ok s1 =>
      match descriptionText fields with
      | Except.error e => Except.error e
      | Except.ok d =>
        match acceptanceLoop fields acceptanceKeys with
        | Except.error e => Except.error e
        | Except.ok a =>
          Except.ok (s1 ++ "Description:" ++ d ++ "Acceptance Criteria:" ++ a)

/-- The number of test cases a parsed first-pass result carries, as the
specification counts them: the length of the testCases list of a parsed
object, and zero for a parse failure, a missing key or a falsy result. -/
def parsedCaseCount (p : Option Json) : Nat :=
  match p with
  | some (Json.obj kvs) =>
    match List.lookup "testCases" kvs with
    | some (Json.arr xs) => xs.length
    | _ => 0
  | _ => 0

/-- The number of test cases a returned result dict carries. -/
def jsonCaseCount (j : Json) : Nat :=
  parsedCaseCount (some j)

/-- The parsed results the threshold claim speaks about: after the
falsy-replacement guard the value is a dict whose testCases entry, when
present, is a list. -/
def tcShapeB (j : Json) : Bool :=
  match j with
  | Json.obj kvs =>
    match List.lookup "testCases" kvs with
    | none => true
    | some (Json.arr _) => true
    | some _ => false
  | _ => false

/-- True of JSON object values. -/
def isObjB : Json → Bool
  | Json.obj _ => true
  | _ => false

theorem strData_append (a b : String) : (a ++ b).data = a.data ++ b.data := by
  cases a; cases b; rfl

theorem strMk_data (s : String) : String.mk s.data = s := by
  cases s; rfl

theorem firstIdxAux_prefix_cons (c : Char) (l1 l2 : List Char) (h : c ∉ l1) :
    firstIdxAux c (l1 ++ c :: l2) = some l1.length := by
  induction l1 with
  | nil => simp [firstIdxAux]
  | cons x xs ih =>
    simp only [List.mem_cons, not_or] at h
    rw [List.cons_append]
    simp only [firstIdxAux]
    rw [if_neg (fun hx => h.1 hx.symm), ih h.2]
    rfl

theorem lastIdxAux_not_mem (c : Char) (l : List Char) (h : c ∉ l) :
    lastIdxAux c l = none := by
  induction l with
  | nil => rfl
  | cons x xs ih =>
    simp only [List.mem_cons, not_or] at h
    simp only [lastIdxAux, ih h.2]
    rw [if_neg (fun hx => h.1 hx.symm)]

theorem lastIdxAux_append_notmem (c : Char) (l1 l2 : List Char) (h : c ∉ l2) :
    lastIdxAux c (l1 ++ l2) = lastIdxAux c l1 := by
  induction l1 with
  | nil => simp [lastIdxAux_not_mem c l2 h, lastIdxAux]
  | cons x xs ih => simp only [List.cons_append, lastIdxAux, List.append_eq, ih]

theorem lastIdxAux_snoc_self (c : Char) (l : List Char) :
    lastIdxAux c (l ++ [c]) = some l.length := by
  induction l with
  | nil => simp [lastIdxAux]
  | cons x xs ih =>
    simp only [List.cons_append, lastIdxAux, List.append_eq, ih, List.length_cons]

theorem qaPairsAux_length (answersMap : List (String × String)) (k : Nat) (qs : List String) :
    (qaPairsAux answersMap k qs).length = qs.length := by
  induction qs generalizing k with
  | nil => rfl
  | cons q qs ih => simp [qaPairsAux, ih]

theorem qaPairsAux_getD (answersMap : List (String × String)) (qs : List String) :
    ∀ (k i : Nat), i < qs.length →
      (qaPairsAux answersMap k qs).getD i ""
        = "Q: " ++ qs.getD i "" ++ " A: " ++ answerFor answersMap (k + i) := by
  induction qs with
  | nil => intro k i h; simp at h
  | cons q qs ih =>
    intro k i h
    cases i with
    | zero => simp [qaPairsAux]
    | succ i =>
      simp only [qaPairsAux, List.getD_cons_succ]
      rw [ih (k + 1) i (by simpa using h)]
      have harith : k + 1 + i = k + (i + 1) := by omega
      rw [harith]

theorem parsedCaseCount_falsy (j : Json) (ht : truthy j = false) :
    parsedCaseCount (some j) = 0 := by
  cases j with
  | obj kvs =>
    simp only [truthy, Bool.not_eq_false'] at ht
    have : kvs = [] := by simpa [List.isEmpty_iff] using ht
    subst this
    rfl
  | null => rfl
  | bool b => rfl
  | num n => rfl
  | str s => rfl
  | arr xs => rfl

theorem acceptanceLoop_nil (fields : Json) : acceptanceLoop fields [] = Except.ok "" := rfl

theorem acceptanceLoop_str (kvs : List (String × Json)) (k : String) (rest : List String)
    (s : String) (hl : List.lookup k kvs = some (Json.str s)) :
    acceptanceLoop (Json.obj kvs) (k :: rest) = Except.ok s := by
  simp [acceptanceLoop, dictGet, hl]

theorem acceptanceLoop_dict (kvs : List (String × Json)) (k : String) (rest : List String)
    (w : List (String × Json)) (hl : List.lookup k kvs = some (Json.obj w)) :
    acceptanceLoop (Json.obj kvs) (k :: rest) = adfFlatten (Json.obj w) := by
  simp [acceptanceLoop, dictGet, hl]

theorem acceptanceLoop_skip (kvs : List (String × Json)) (k : String) (rest : List String)
    (hv : passedOver (List.lookup k kvs) = true) :
    acceptanceLoop (Json.obj kvs) (k :: rest) = acceptanceLoop (Json.obj kvs) rest := by
  cases hl : List.lookup k kvs with
  | none => simp [acceptanceLoop, dictGet, hl]
  | some v =>
    rw [hl] at hv
    cases v with
    | str s => simp [passedOver] at hv
    | obj w => simp [passedOver] at hv
    | null => simp [acceptanceLoop, dictGet, hl]
    | bool b => simp [acceptanceLoop, dictGet, hl]
    | num n => simp [acceptanceLoop, dictGet, hl]
    | arr xs => simp [acceptanceLoop, dictGet, hl]

theorem submitInner_ok_shape (store : CtxStore) (username : String)
    (answers : List (String × String)) (maxCases : Nat) (content : String) (j : Json)
    (h : submitAnswersInner store username answers maxCases content = Except.ok j) :
    exactlyOneVariant j = true := by
  unfold submitAnswersInner at h
  cases hf : findContext store username with
  | none => rw [hf] at h; simp at h
  | some ctx =>
    rw [hf] at h
    simp only [] at h
    cases hi : pyIndex
        (generateRefinedTestCases ctx.originalText ctx.questions answers maxCases content)
        "testCases" with
    | error e => rw [hi] at h; simp at h
    | ok tcs =>
      rw [hi] at h
      simp only [Except.ok.injEq] at h
      subst h
      rfl

theorem uploadInner_ok_shape (store : CtxStore) (username extractedText : String)
    (maxCases : Nat) (enableFollowups : Bool) (content contextId : String)
    (j : Json) (store2 : CtxStore)
    (h : uploadFileInner store username extractedText maxCases enableFollowups content contextId
          = Except.ok (j, store2)) :
    exactlyOneVariant j = true := by
  unfold uploadFileInner at h
  cases hg : generateTestCases extractedText maxCases enableFollowups content with
  | error e => rw [hg] at h; simp at h
  | ok gr =>
    rw [hg] at h
    simp only [] at h
    cases hq : dictGet (genReturnJson gr) "followUpQuestions" with
    | error e => rw [hq] at h; simp at h
    | ok fq =>
      rw [hq] at h
      by_cases ht : optTruthy fq = true
      · simp only [ht, if_true] at h
        simp only [Except.ok.injEq, Prod.mk.injEq] at h
        obtain ⟨hj, _⟩ := h
        subst hj
        rfl
      · simp only [Bool.not_eq_true] at ht
        simp only [ht, Bool.false_eq_true, if_false] at h
        cases hi : pyIndex (genReturnJson gr) "testCases" with
        | error e => rw [hi] at h; simp at h
        | ok tcs =>
          rw [hi] at h
          simp only [Except.ok.injEq, Prod.mk.injEq] at h
          obtain ⟨hj, _⟩ := h
          subst hj
          rfl

/-- C1, counterexample: a concrete successful answer submission (one
stored context owned by alice, a model response carrying one test case)
returns the refined result, yet the consumed context is still in the
store and still retrievable by the same user, contradicting the claim
that it is removed. -/
theorem c1_cex :
    (submitAnswers [("h1", SynthesisContext.mk "text" ["q0"] "alice")] "alice" [] 10
        "\x7b\"testCases\": [1]\x7d").1
      = Except.ok (Json.obj [("testCases", Json.arr [Json.num 1])]) ∧
    (submitAnswers [("h1", SynthesisContext.mk "text" ["q0"] "alice")] "alice" [] 10
        "\x7b\"testCases\": [1]\x7d").2
      = [("h1", SynthesisContext.mk "text" ["q0"] "alice")] ∧
    findContext (submitAnswers [("h1", SynthesisContext.mk "text" ["q0"] "alice")] "alice" [] 10
        "\x7b\"testCases\": [1]\x7d").2 "alice"
      = some (SynthesisContext.mk "text" ["q0"] "alice") :=
  ⟨rfl, rfl, rfl⟩

/-- C1, amended: submit_answers never deletes the consumed context; the
store is unchanged on every path, so after a successful refinement the
context is still retrievable by the same user. -/
theorem c1_thm (store : CtxStore) (username : String) (answers : List (String × String))
    (maxCases : Nat) (content : String) :
    (submitAnswers store username answers maxCases content).2 = store ∧
    findContext (submitAnswers store username answers maxCases content).2 username
      = findContext store username := by
  cases h : submitAnswersInner store username answers maxCases content with
  | ok j => simp [submitAnswers, h]
  | error e => simp [submitAnswers, h]

/-- C2, counterexample: with maxTestCases = 1 and a model response
carrying two test cases, the generation run returns a result with two
test cases, exceeding the configured maximum. -/
theorem c2_cex :
    generateTestCases "story" 1 false "\x7b\"testCases\": [1, 2]\x7d"
      = Except.ok (GenReturn.result (Json.obj [("testCases", Json.arr [Json.num 1, Json.num 2])])) ∧
    jsonCaseCount (Json.obj [("testCases", Json.arr [Json.num 1, Json.num 2])]) = 2 ∧
    1 < jsonCaseCount (Json.obj [("testCases", Json.arr [Json.num 1, Json.num 2])]) :=
  ⟨rfl, rfl, by decide⟩

/-- C2, amended: the maxTestCases cap only appears in the prompt text
and is never enforced on the parsed result: both the generation and the
refinement result are identical for every maxTestCases value, so the
number of returned test cases is whatever the model response parsed to
and can exceed the configured maximum. -/
theorem c2_thm (sourceText : String) (enable : Bool) (content : String)
    (questions : List String) (answersMap : List (String × String)) (m m2 : Nat) :
    generateTestCases sourceText m enable content
        = generateTestCases sourceText m2 enable content ∧
    generateRefinedTestCases sourceText questions answersMap m content
        = generateRefinedTestCases sourceText questions answersMap m2 content :=
  ⟨rfl, rfl⟩

/-- C5: an answer submission finding no context owned by the requesting
user raises HTTPException(404), but the blanket except Exception clause
of submit_answers catches that exception and re-raises it as a 500, so
the caller observes a 500 whose detail embeds the original 404 text,
not a 404. Evaluated at the failing input: an empty store and any model
response. -/
theorem c5_thm (content : String) :
    submitAnswers ([] : CtxStore) "alice" [] 10 content
      = (Except.error
          (AppErr.httpExc 500 "Failed to process answers: 404: Context not found"),
         ([] : CtxStore)) :=
  rfl

/-- C10: a model response that is valid JSON but not a JSON object (the
non-empty array [1]) makes generate_test_cases raise AttributeError on
the .get call instead of returning a test-case result or a
clarification bundle: the null-on-unparsable fail-soft policy does not
cover JSON values other than objects. -/
theorem c10_thm :
    jsonParse "[1]" = some (Json.arr [Json.num 1]) ∧
    isObjB (Json.arr [Json.num 1]) = false ∧
    generateTestCases "story" 10 true "[1]"
      = Except.error (PyErr.attributeError "object has no attribute get") :=
  ⟨rfl, rfl, rfl⟩

/-- C6: every response body returned to the caller by the upload (or
Jira) generation endpoint and by the answer-submission endpoint carries
exactly one of the two variants: the followUpQuestions key without the
testCases key, or the testCases key without the followUpQuestions key,
for every model output text. -/
theorem c6_thm (store : CtxStore) (username extractedText : String) (maxCases : Nat)
    (enableFollowups : Bool) (content contextId : String)
    (answers : List (String × String)) :
    (∀ j store2,
      uploadFile store username extractedText maxCases enableFollowups content contextId
          = (Except.ok j, store2) → exactlyOneVariant j = true) ∧
    (∀ j store2,
      submitAnswers store username answers maxCases content
          = (Except.ok j, store2) → exactlyOneVariant j = true) := by
  constructor
  · intro j store2 h
    unfold uploadFile at h
    cases hu : uploadFileInner store username extractedText maxCases enableFollowups
        content contextId with
    | ok pr =>
      obtain ⟨j0, st0⟩ := pr
      rw [hu] at h
      simp only [Prod.mk.injEq, Except.ok.injEq] at h
      obtain ⟨hj, _⟩ := h
      subst hj
      exact uploadInner_ok_shape store username extractedText maxCases enableFollowups
        content contextId j0 st0 hu
    | error e =>
      rw [hu] at h
      simp at h
  · intro j store2 h
    cases hs : submitAnswersInner store username answers maxCases content with
    | ok j0 =>
      rw [submitAnswers, hs] at h
      simp only [Prod.mk.injEq, Except.ok.injEq] at h
      obtain ⟨hj, _⟩ := h
      subst hj
      exact submitInner_ok_shape store username answers maxCases content j0 hs
    | error e =>
      rw [submitAnswers, hs] at h
      simp at h

/-- C6 witness: a concrete upload with clarifications disabled and a
one-test-case model response produces a response carrying exactly the
testCases variant. -/
theorem c6_wit :
    exactlyOneVariant (Json.obj [("testCases", Json.arr [Json.num 1])]) = true :=
  (c6_thm [] "alice" "doc" 10 false "\x7b\"testCases\": [1]\x7d" "cid1" []).1
    (Json.obj [("testCases", Json.arr [Json.num 1])]) [] rfl

/-- C8: the Q/A block of the refinement prompt has exactly one entry
per stored question, in original question order; the entry for index i
is Q-space-question-space-A-space-answer, and a question whose index is
missing from the AnswerSet is rendered with an empty answer rather than
omitted. -/
theorem c8_thm (questions : List String) (answersMap : List (String × String)) (i : Nat)
    (h : i < questions.length) :
    (qaPairs questions answersMap).length = questions.length ∧
    (qaPairs questions answersMap).getD i ""
      = "Q: " ++ questions.getD i "" ++ " A: " ++ answerFor answersMap i ∧
    (List.lookup (toString i) answersMap = none →
      (qaPairs questions answersMap).getD i "" = "Q: " ++ questions.getD i "" ++ " A: ") := by
  refine ⟨qaPairsAux_length answersMap 0 questions, ?_, ?_⟩
  · have hg := qaPairsAux_getD answersMap questions 0 i h
    simpa [qaPairs] using hg
  · intro hnone
    have hg := qaPairsAux_getD answersMap questions 0 i h
    simp only [Nat.zero_add] at hg
    rw [qaPairs, hg]
    simp [answerFor, hnone]

/-- C8 witness: with questions q0 and q1 and an AnswerSet holding only
index 0, the entry for index 1 is rendered with an empty answer. -/
theorem c8_wit :
    1 < (["q0", "q1"] : List String).length ∧
    (qaPairs ["q0", "q1"] [("0", "a0")]).getD 1 "" = "Q: q1 A: " :=
  ⟨by decide, (c8_thm ["q0", "q1"] [("0", "a0")] 1 (by decide)).2.2 rfl⟩

/-- C9, counterexample: with the first acceptance field present but
equal to the empty string and the second present and non-empty, the
acceptance loop takes the empty first field and never consults the
second, contradicting the claim that a present-but-empty field is
skipped in favor of the later names. -/
theorem c9_cex :
    List.lookup "customfield_10034"
        [("customfield_10034", Json.str ""), ("Acceptance Criteria", Json.str "AC text")]
      = some (Json.str "") ∧
    List.lookup "Acceptance Criteria"
        [("customfield_10034", Json.str ""), ("Acceptance Criteria", Json.str "AC text")]
      = some (Json.str "AC text") ∧
    acceptanceLoop
        (Json.obj [("customfield_10034", Json.str ""), ("Acceptance Criteria", Json.str "AC text")])
        acceptanceKeys
      = Except.ok "" ∧
    ("" : String) ≠ "AC text" :=
  ⟨rfl, rfl, rfl, by decide⟩

/-- C9, amended: the acceptance text comes from the first field name in
the fixed order whose value is present as a string or as a structured
document, even when that string is empty; only absent keys and values
of other types are passed over in favor of the later names. -/
theorem c9_thm (kvs : List (String × Json)) :
    (∀ s, List.lookup "customfield_10034" kvs = some (Json.str s) →
      acceptanceLoop (Json.obj kvs) acceptanceKeys = Except.ok s) ∧
    (∀ w, List.lookup "customfield_10034" kvs = some (Json.obj w) →
      acceptanceLoop (Json.obj kvs) acceptanceKeys = adfFlatten (Json.obj w)) ∧
    (passedOver (List.lookup "customfield_10034" kvs) = true →
      ∀ s, List.lookup "Acceptance Criteria" kvs = some (Json.str s) →
        acceptanceLoop (Json.obj kvs) acceptanceKeys = Except.ok s) ∧
    (passedOver (List.lookup "customfield_10034" kvs) = true →
      passedOver (List.lookup "Acceptance Criteria" kvs) = true →
      ∀ s, List.lookup "acceptanceCriteria" kvs = some (Json.str s) →
        acceptanceLoop (Json.obj kvs) acceptanceKeys = Except.ok s) ∧
    (passedOver (List.lookup "customfield_10034" kvs) = true →
      passedOver (List.lookup "Acceptance Criteria" kvs) = true →
      passedOver (List.lookup "acceptanceCriteria" kvs) = true →
      acceptanceLoop (Json.obj kvs) acceptanceKeys = Except.ok "") := by
  refine ⟨?_, ?_, ?_, ?_, ?_⟩
  · intro s hl
    exact acceptanceLoop_str kvs _ _ s hl
  · intro w hl
    exact acceptanceLoop_dict kvs _ _ w hl
  · intro h1 s hl
    rw [acceptanceKeys, acceptanceLoop_skip kvs _ _ h1]
    exact acceptanceLoop_str kvs _ _ s hl
  · intro h1 h2 s hl
    rw [acceptanceKeys, acceptanceLoop_skip kvs _ _ h1, acceptanceLoop_skip kvs _ _ h2]
    exact acceptanceLoop_str kvs _ _ s hl
  · intro h1 h2 h3
    rw [acceptanceKeys, acceptanceLoop_skip kvs _ _ h1, acceptanceLoop_skip kvs _ _ h2,
      acceptanceLoop_skip kvs _ _ h3]
    exact acceptanceLoop_nil (Json.obj kvs)

/-- C9 witness: the empty-string first field is selected, yielding an
empty acceptance text even though a later field is non-empty. -/
theorem c9_wit :
    acceptanceLoop
        (Json.obj [("customfield_10034", Json.str ""), ("Acceptance Criteria", Json.str "AC text")])
        acceptanceKeys
      = Except.ok "" :=
  (c9_thm [("customfield_10034", Json.str ""), ("Acceptance Criteria", Json.str "AC text")]).1
    "" rfl

/-- C4: for every input text the parser is total (the model never
raises) and agrees with the specified contract: the strict parse of the
whole text when that succeeds, otherwise the strict parse of the
substring from the first opening brace through the last closing brace
when the text contains an opening brace and a later closing brace, and
null in every remaining case. -/
theorem c4_thm (text : String) : safeParseJson text = safeParseClaimed text := by
  cases hj : jsonParse text with
  | some v => simp [safeParseJson, safeParseClaimed, hj]
  | none =>
    cases hf : firstIdxAux '{' text.data with
    | none => simp [safeParseJson, safeParseClaimed, hj, strFind, strRFind, hf]
    | some i =>
      cases hl : lastIdxAux '}' text.data with
      | none => simp [safeParseJson, safeParseClaimed, hj, strFind, strRFind, hf, hl]
      | some k =>
        simp only [safeParseJson, safeParseClaimed, hj, strFind, strRFind, hf, hl]
        by_cases hik : i < k
        · rw [if_pos ⟨by omega, by omega, by omega⟩, if_pos hik]
          simp [pySlice]
        · rw [if_neg (by omega), if_neg hik]

/-- C7, counterexample: the claim quantifies over every prefix and
suffix of non-JSON prose with the single balanced-region side
condition. With prefix an opening brace, the valid JSON text [1] and
suffix a closing brace, the concatenation holds exactly one balanced
brace region, both surrounding pieces fail to parse as JSON, yet the
parser returns null instead of the structure of [1]. -/
theorem c7_cex :
    jsonParse "[1]" = some (Json.arr [Json.num 1]) ∧
    jsonParse "\x7b" = none ∧
    jsonParse "\x7d" = none ∧
    balancedRegionCount ("\x7b" ++ "[1]" ++ "\x7d") = 1 ∧
    safeParseJson ("\x7b" ++ "[1]" ++ "\x7d") = none ∧
    safeParseJson ("\x7b" ++ "[1]" ++ "\x7d") ≠ jsonParse "[1]" := by
  refine ⟨rfl, rfl, rfl, rfl, rfl, ?_⟩
  intro hc
  rw [show safeParseJson ("\x7b" ++ "[1]" ++ "\x7d") = none from rfl] at hc
  rw [show jsonParse "[1]" = some (Json.arr [Json.num 1]) by rfl] at hc
  exact Option.noConfusion hc

/-- C7, amended: when the embedded JSON text is an object (its
character list starts with an opening brace and ends with a closing
brace), the prose prefix contains no opening brace, the prose suffix
contains no closing brace, and the whole concatenation does not itself
parse strictly, the parser returns exactly the structure of the JSON
object alone. -/
theorem c7_thm (p j s : String) (mid : List Char) (v : Json)
    (hp : '{' ∉ p.data) (hs : '}' ∉ s.data)
    (hj : j.data = '{' :: mid ++ ['}'])
    (hjv : jsonParse j = some v)
    (hfail : jsonParse (p ++ j ++ s) = none) :
    safeParseJson (p ++ j ++ s) = some v := by
  have hdata : (p ++ j ++ s).data = p.data ++ j.data ++ s.data := by
    rw [strData_append, strData_append]
  have hjlen : j.data.length = mid.length + 2 := by rw [hj]; simp
  have hfirst : firstIdxAux '{' (p ++ j ++ s).data = some p.data.length := by
    rw [hdata, hj]
    have hre : p.data ++ ('{' :: mid ++ ['}']) ++ s.data
        = p.data ++ '{' :: (mid ++ ['}'] ++ s.data) := by
      simp [List.append_assoc]
    rw [hre]
    exact firstIdxAux_prefix_cons '{' p.data _ hp
  have hlast : lastIdxAux '}' (p ++ j ++ s).data = some (p.data.length + mid.length + 1) := by
    rw [hdata, hj]
    have hre : p.data ++ ('{' :: mid ++ ['}']) ++ s.data
        = ((p.data ++ '{' :: mid) ++ ['}']) ++ s.data := by
      simp [List.append_assoc]
    rw [hre, lastIdxAux_append_notmem '}' _ s.data hs, lastIdxAux_snoc_self]
    simp only [List.length_append, List.length_cons, Option.some.injEq]
    omega
  simp only [safeParseJson, hfail, strFind, strRFind, hfirst, hlast]
  rw [if_pos ⟨by omega, by omega, by omega⟩]
  simp only [Int.toNat_ofNat]
  have hslice : pySlice (p ++ j ++ s) p.data.length (p.data.length + mid.length + 1 + 1) = j := by
    rw [pySlice, hdata, List.append_assoc, List.drop_left]
    have h2 : p.data.length + mid.length + 1 + 1 - p.data.length = j.data.length := by omega
    rw [h2, List.take_left, strMk_data]
  rw [hslice, hjv]

/-- C7 witness: a JSON object wrapped in brace-free prose on both sides
parses to the same structure as the object alone. -/
theorem c7_wit :
    jsonParse "\x7b\"a\": 1\x7d" = some (Json.obj [("a", Json.num 1)]) ∧
    safeParseJson ("Model output: " ++ "\x7b\"a\": 1\x7d" ++ " and done")
      = some (Json.obj [("a", Json.num 1)]) :=
  ⟨rfl,
   c7_thm "Model output: " "\x7b\"a\": 1\x7d" " and done" ("\"a\": 1").data
     (Json.obj [("a", Json.num 1)]) (by decide) (by decide) rfl rfl rfl⟩

/-- C3: for every generation run whose parsed first-pass result is a
parse failure or a dict whose testCases entry, when present, is a list,
the clarification path is taken if and only if the follow-up setting is
on and the parsed result has fewer than 3 test cases, the parse-failure
and zero cases included. -/
theorem c3_thm (sourceText : String) (maxCases : Nat) (enable : Bool) (content : String)
    (h : tcShapeB (fixFalsy (safeParseJson content)) = true) :
    (generateTestCases sourceText maxCases enable content
        = Except.ok (GenReturn.followUps (proposeFollowups sourceText)))
      ↔ (enable = true ∧ parsedCaseCount (safeParseJson content) < 3) := by
  cases hp : safeParseJson content with
  | none =>
    cases enable with
    | false => simp [generateTestCases, hp, fixFalsy]
    | true =>
      simp [generateTestCases, hp, fixFalsy, dictGet, optTruthy, truthy, parsedCaseCount,
        List.lookup]
  | some j =>
    rw [hp] at h
    by_cases ht : truthy j = true
    · have hfix : fixFalsy (some j) = j := by simp [fixFalsy, ht]
      rw [hfix] at h
      cases j with
      | obj kvs =>
        cases hl : List.lookup "testCases" kvs with
        | none =>
          cases enable with
          | false => simp [generateTestCases, hp, hfix]
          | true =>
            simp [generateTestCases, hp, hfix, dictGet, hl, optTruthy,
              parsedCaseCount]
        | some v =>
          cases v with
          | arr xs =>
            cases xs with
            | nil =>
              cases enable with
              | false => simp [generateTestCases, hp, hfix]
              | true =>
                simp [generateTestCases, hp, hfix, dictGet, hl, optTruthy, truthy,
                  parsedCaseCount]
            | cons y ys =>
              cases enable with
              | false =>
                simp [generateTestCases, hp, hfix]
              | true =>
                by_cases hn : ys.length + 1 < 3
                · simp [generateTestCases, hp, hfix, dictGet, hl, optTruthy, truthy,
                    pyLen, Option.getD, hn, parsedCaseCount]
                · simp [generateTestCases, hp, hfix, dictGet, hl, optTruthy, truthy,
                    pyLen, Option.getD, hn, parsedCaseCount]
          | null => simp [tcShapeB, hl] at h
          | bool b => simp [tcShapeB, hl] at h
          | num n => simp [tcShapeB, hl] at h
          | str s => simp [tcShapeB, hl] at h
          | obj w => simp [tcShapeB, hl] at h
      | null => simp [tcShapeB] at h
      | bool b => simp [tcShapeB] at h
      | num n => simp [tcShapeB] at h
      | str s => simp [tcShapeB] at h
      | arr xs => simp [tcShapeB] at h
    · have ht2 : truthy j = false := by simpa using ht
      have hfix : fixFalsy (some j) = Json.obj [("testCases", Json.arr [])] := by
        simp [fixFalsy, ht2]
      have hcount : parsedCaseCount (some j) = 0 := parsedCaseCount_falsy j ht2
      cases enable with
      | false => simp [generateTestCases, hp, hfix]
      | true =>
        simp [generateTestCases, hp, hfix, dictGet, optTruthy, truthy, hcount, List.lookup]

/-- C3 witness: with clarifications enabled, a parsed result holding
exactly 2 test cases triggers the clarification path and one holding
exactly 3 does not. -/
theorem c3_wit :
    (generateTestCases "story" 10 true "\x7b\"testCases\": [1, 2]\x7d"
        = Except.ok (GenReturn.followUps (proposeFollowups "story"))) ∧
    ¬(generateTestCases "story" 10 true "\x7b\"testCases\": [1, 2, 3]\x7d"
        = Except.ok (GenReturn.followUps (proposeFollowups "story"))) :=
  ⟨(c3_thm "story" 10 true "\x7b\"testCases\": [1, 2]\x7d" rfl).mpr ⟨rfl, by decide⟩,
   fun hc =>
     absurd ((c3_thm "story" 10 true "\x7b\"testCases\": [1, 2, 3]\x7d" rfl).mp hc).2
       (by decide)⟩

end TCG

